import Mathlib

/-!
Verification development for the `atm` template-manager package
(atomic-template-manager).  The definitions below are a shallow embedding of
the final source revision: pure Go functions become Lean functions, the
mutable `manager` becomes explicit state passing, external collaborators
(the `html/template` engine, the file system walk) are modelled from their
documented behaviour.  Machine strings are Lean `String`s; the Go code is
byte-oriented but every string handled here is ASCII, where the two agree.
The embedding fixes one serialization of the per-directory workers, which is
noted at each definition it affects.  The mutex `rootex` is carried
explicitly: the source's walk callback returns on read/parse errors while
holding it (no unlock on those paths), so the lock can be left held, and a
later acquisition then blocks forever — `GoOutcome.blocked` models a call
that never returns.
-/

namespace Atm

/-! ## Go string primitives (package `strings`, `path/filepath`) -/

/-- Models Go `strings.TrimPrefix(s, pre)`: `s` without the leading `pre`,
or `s` unchanged when `pre` is not a prefix. -/
def trimPrefixStr (s pre : String) : String :=
  if pre.toList.isPrefixOf s.toList then String.mk (s.toList.drop pre.toList.length) else s

/-- Models Go `strings.TrimSuffix(s, suf)`: `s` without the trailing `suf`,
or `s` unchanged when `suf` is not a suffix. -/
def trimSuffixStr (s suf : String) : String :=
  if suf.toList.isSuffixOf s.toList then
    String.mk (s.toList.take (s.toList.length - suf.toList.length))
  else s

/-- Split a character list around every occurrence of `sep`.  This is Go
`strings.Split(s, sep)` for a one-character separator (the only way the
source calls it, with `string(os.PathSeparator)`). -/
def splitCharAux (sep : Char) : List Char → List (List Char)
  | [] => [[]]
  | c :: cs =>
    if c = sep then [] :: splitCharAux sep cs
    else
      match splitCharAux sep cs with
      | [] => [[c]]
      | h :: t => (c :: h) :: t

/-- Models Go `strings.Split(s, string(sep))` for a one-character separator. -/
def goSplitChar (sep : Char) (s : String) : List String :=
  (splitCharAux sep s.toList).map String.mk

/-- The suffix of a character list starting at its last `'.'` (inclusive),
if any. -/
def extAux : List Char → Option (List Char)
  | [] => none
  | c :: cs =>
    match extAux cs with
    | some s => some s
    | none => if c = '.' then some (c :: cs) else none

/-- Models Go `filepath.Ext(name)` applied to a base file name (the source
only applies it to `info.Name()`, which contains no path separator): the
suffix beginning at the final dot, or `""` when there is no dot. -/
def filepathExt (name : String) : String :=
  match extAux name.toList with
  | some s => String.mk s
  | none => ""

/-! ## Alias derivation (source `templateAliases`, `removeLeadingNumbers`) -/

/-- `os.PathSeparator` on the target platform (unix). -/
def pathSeparator : Char := '/'

/-- Source `removeLeadingNumbers`: the body is literally `return p`. -/
def removeLeadingNumbers (p : String) : String := p

/-- Source `templateAliases(root, path, ext)`.  `none` models the `panic`
branch (`len(parts) < 1`); otherwise the returned slice.  Note the first
alias appended is `aliasWithExtension` (the prefix-trimmed path with its
extension still attached); only the short alias is derived from the
extension-stripped form.  The prefix trimmed is `root + "/"` (a literal
forward slash in the source), and the split separator is
`os.PathSeparator`; on the unix target both are `'/'`. -/
def templateAliases (root path ext : String) : Option (List String) :=
  let aliasWithExtension := trimPrefixStr path (root ++ "/")
  let aliasWithoutExtension := trimSuffixStr aliasWithExtension ("." ++ ext)
  match goSplitChar pathSeparator aliasWithoutExtension with
  | [] => none
  | [p] => some [aliasWithExtension, removeLeadingNumbers p]
  | p :: q :: rest =>
      some [aliasWithExtension,
        removeLeadingNumbers p ++ "-" ++
          removeLeadingNumbers ((q :: rest).getLast (List.cons_ne_nil q rest))]

/-- The second ("short") alias `templateAliases` derives: the single segment
when the extension-stripped relative path has one segment, else the first
and last segments joined by a hyphen. -/
def shortAlias (root path ext : String) : String :=
  let aliasWithExtension := trimPrefixStr path (root ++ "/")
  let aliasWithoutExtension := trimSuffixStr aliasWithExtension ("." ++ ext)
  match goSplitChar pathSeparator aliasWithoutExtension with
  | [] => ""
  | [p] => removeLeadingNumbers p
  | p :: q :: rest =>
      removeLeadingNumbers p ++ "-" ++
        removeLeadingNumbers ((q :: rest).getLast (List.cons_ne_nil q rest))

/-! ## Go error values

Go errors are compared by identity (`==`).  The OS-facing standard library
(`os`, `path/filepath`) reports failures as `*fs.PathError` values wrapping
an underlying cause, so a bare sentinel such as `os.ErrPermission` is never
itself the error delivered by `filepath.Walk`; `pathError` records that
wrapping.  `errorsNew` models a fresh `errors.New(msg)` value. -/
inductive GoErr
  | errPermission
  | pathError (op : String) (file : String) (cause : GoErr)
  | errorsNew (msg : String)
  | readFileError (file : String)
  | parseError (msg : String)
  deriving DecidableEq, Repr

/-- Go `err.Error()` for the modelled error values. -/
def errString : GoErr → String
  | .errPermission => "permission denied"
  | .pathError op file cause => op ++ " " ++ file ++ ": " ++ errString cause
  | .errorsNew msg => msg
  | .readFileError file => "read " ++ file
  | .parseError msg => msg

/-! ## The external `html/template` engine

Modelled from its documented behaviour: one shared name space per root,
mapping names to templates; a template may be *incomplete* (created by `New`
or never parsed — its tree is still nil).  A parsed tree is represented by
the source text it was parsed from; rendering a tree writes that text (the
template language itself is outside this package). -/

inductive Tree
  | mk (body : String)
  deriving DecidableEq, Repr

/-- A file's bytes as `ioutil.ReadFile`/`Parse` see them: `valid` contents
parse into a tree, `invalid` contents make `Parse` fail, `unreadable` makes
`ReadFile` itself fail. -/
inductive Content
  | valid (body : String)
  | invalid (msg : String)
  | unreadable
  deriving DecidableEq, Repr

/-- The engine name space: an association list keyed by template name; the
value is `none` for an incomplete template (nil tree).  Go map insertion:
replace the entry when the key exists, otherwise append. -/
def nsSet : List (String × Option Tree) → String → Option Tree → List (String × Option Tree)
  | [], n, t => [(n, t)]
  | (k, v) :: rest, n, t => if k = n then (n, t) :: rest else (k, v) :: nsSet rest n t

/-- Go map lookup: `some v` when the key is present. -/
def nsLookup : List (String × Option Tree) → String → Option (Option Tree)
  | [], _ => none
  | (k, v) :: rest, n => if k = n then some v else nsLookup rest n

/-- A root `*ht.Template` handle: its name, the shared name-space set, and
the configuration applied to the whole set. -/
structure GoTemplate where
  name : String
  set : List (String × Option Tree)
  leftDelim : String
  rightDelim : String
  funcs : List String
  deriving DecidableEq, Repr

/-- `ht.New(name)` (package function): a fresh name space that already
contains the root itself, incomplete. -/
def htNew (name : String) : GoTemplate :=
  { name := name, set := [(name, none)], leftDelim := "", rightDelim := "", funcs := [] }

/-- The engine's `ExecuteTemplate` outcome: executing an unknown name fails
("no such template"), executing a known but never-parsed name fails
("incomplete or empty template"), otherwise the body renders. -/
inductive ExecErr
  | undefinedTemplate (name : String)
  | incompleteTemplate (name : String)
  deriving DecidableEq, Repr

/-- Models `(*ht.Template).ExecuteTemplate` looking the name up in the
shared set.  Rendering a complete tree yields its body (data is irrelevant
in this model: the bodies carry no actions). -/
def htExecuteTemplate (g : GoTemplate) (name : String) : Except ExecErr String :=
  match nsLookup g.set name with
  | none => .error (.undefinedTemplate name)
  | some none => .error (.incompleteTemplate name)
  | some (some (Tree.mk body)) => .ok body

/-! ## The manager (source `manager` struct and methods) -/

/-- Source `manager`: `dirs` and `extensions` are Go `map[string]bool` sets
kept as insertion-ordered duplicate-free lists; `templates` records the
parsed templates by their primary (first) alias; `rootexLocked` is the state
of the mutex `rootex` between calls — `true` when a failing walk callback
returned while holding it, in which case the next `Lock()` blocks forever. -/
structure Manager where
  root : GoTemplate
  funcMap : List String
  dirs : List String
  extensions : List String
  templates : List String
  reparse : Bool
  leftDelim : String
  rightDelim : String
  rootexLocked : Bool
  deriving DecidableEq, Repr

/-- The observable outcome of calling into the manager: a normal return, a
panic crashing the process, or a call that never returns because it blocks
forever on the held mutex (or on the never-closed error channel behind a
blocked worker). -/
inductive GoOutcome (α : Type)
  | ok (a : α)
  | panicked (msg : String)
  | blocked
  deriving DecidableEq, Repr

/-- Insertion into a Go `map[string]bool` used as a set: a present key is
left alone (`m[k] = true` twice is a no-op). -/
def setInsert (l : List String) (s : String) : List String :=
  if l.contains s then l else l ++ [s]

/-- Source `New()`: fresh root named `"atomic-template-manager"`, default
extensions `html` and `tpl`, caching enabled (`reparse = false`). -/
def NewManager : Manager :=
  { root := htNew "atomic-template-manager", funcMap := [], dirs := [],
    extensions := ["html", "tpl"], templates := [], reparse := false,
    leftDelim := "", rightDelim := "", rootexLocked := false }

/-- The process environment's `filepath.Abs`: resolution depends on the
working directory and can fail (when the working directory cannot be
determined). -/
def AbsEnv := String → Except GoErr String

/-- Source `AddDirectories`: each incoming path is absolutized and inserted
into the directory set; an absolutization error returns `(m, err)` at once
— the remaining paths of the call are not processed. -/
def addDirectories (abs : AbsEnv) (m : Manager) (paths : List String) :
    Manager × Option GoErr :=
  match paths with
  | [] => (m, none)
  | v :: rest =>
    match abs v with
    | .error e => (m, some e)
    | .ok a => addDirectories abs { m with dirs := setInsert m.dirs a } rest

/-- Source `AddFileExtension`. -/
def addFileExtension (m : Manager) (ext : String) : Manager :=
  { m with extensions := setInsert m.extensions ext }

/-- Source `RemoveFileExtension` (`delete(m.extensions, ext)`). -/
def removeFileExtension (m : Manager) (ext : String) : Manager :=
  { m with extensions := m.extensions.filter (fun e => e != ext) }

/-! ## The directory walk (external `filepath.Walk` + the source callback)

`filepath.Walk` visits the root and every entry below it in lexical order
and invokes the callback once per entry; a directory whose listing fails and
a file whose `lstat` fails are visited once with the wrapped error (the
latter with a nil `FileInfo`), and their contents are not visited.  A
directory is therefore abstracted to the sequence of visits Walk performs on
it: a `WalkEvent` per visited entry.  A non-nil callback return aborts the
walk and becomes Walk's return value (the callback never returns
`filepath.SkipDir`).  A panic in the callback propagates out of Walk. -/

/-- The `os.FileInfo` fields the callback consults. -/
structure FileInfo where
  name : String
  isDir : Bool
  deriving DecidableEq, Repr

/-- One visit `filepath.Walk` performs: the path handed to the callback, the
`FileInfo` (`none` models the nil `FileInfo` after a failed `lstat`), the
incoming error, and — for regular files — the bytes `ioutil.ReadFile(path)`
would yield (the callback is the only reader of the file). -/
structure WalkEvent where
  path : String
  info : Option FileInfo
  err : Option GoErr
  content : Content
  deriving DecidableEq, Repr

/-- The mutable state the walk callback touches: the shared name-space set
of `m.root`, the `m.templates` list (by primary alias), the errors sent on
the channel `c`, and whether some callback has returned while holding
`rootex` (`lockLeaked`), after which any further `Lock()` blocks forever. -/
structure PState where
  set : List (String × Option Tree)
  templates : List String
  chan : List GoErr
  lockLeaked : Bool
  deriving DecidableEq, Repr

/-- What one callback invocation does: return a value to Walk, panic, or
block forever trying to acquire the held mutex. -/
inductive CBOut
  | ret (r : Option GoErr)
  | panicked (msg : String)
  | blocked
  deriving DecidableEq, Repr

/-- The walk callback of `ParseTemplates` (source lines 150–200) on one
visit.  Branches, in source order: the `err == os.ErrPermission` sentinel
identity test (sends `errors.New(path + " " + err.Error())` on the channel
and continues); `info.IsDir()` (a nil `FileInfo` makes this dereference
panic); the extension allow-list test; alias derivation (whose panic branch
propagates) and the `lalias == 0` check; `m.rootex.Lock()` — which blocks
forever when an earlier failing callback left the mutex held; then
`m.root.New(alias[0])` (inserting an incomplete template — this insertion
persists even when the later read or parse fails); `ioutil.ReadFile`;
`Parse`; append to `m.templates`; `AddParseTree` for each remaining alias
(which cannot fail before anything has executed); `m.rootex.Unlock()`.  The
read and parse error paths return WITHOUT unlocking — the source has no
`defer` for the mutex — so they set `lockLeaked`. -/
def walkFn (exts : List String) (dir : String) (st : PState)
    (path : String) (info : Option FileInfo) (ferr : Option GoErr)
    (content : Content) : PState × CBOut :=
  if ferr = some GoErr.errPermission then
    ({ st with chan := st.chan ++ [.errorsNew (path ++ " " ++ errString .errPermission)] },
     .ret none)
  else
    match info with
    | none => (st, .panicked "runtime error: invalid memory address or nil pointer dereference")
    | some i =>
      if i.isDir then (st, .ret none)
      else
        let ext := trimPrefixStr (filepathExt i.name) "."
        if exts.contains ext then
          match templateAliases dir path ext with
          | none => (st, .panicked ("Root and path are the same ( root = " ++ dir ++ ", path = " ++ path ++ " )"))
          | some aliasList =>
            match aliasList with
            | [] => (st, .ret none)
            | a0 :: arest =>
              if st.lockLeaked then (st, .blocked)
              else
                let st1 := { st with set := nsSet st.set a0 none }
                match content with
                | .unreadable =>
                  ({ st1 with lockLeaked := true }, .ret (some (.readFileError path)))
                | .invalid msg =>
                  ({ st1 with lockLeaked := true }, .ret (some (.parseError msg)))
                | .valid body =>
                  let tree := Tree.mk body
                  let st2 := { st1 with set := nsSet st1.set a0 (some tree),
                                        templates := st1.templates ++ [a0] }
                  let st3 := { st2 with
                                set := arest.foldl (fun s a => nsSet s a (some tree)) st2.set }
                  (st3, .ret none)
        else (st, .ret none)

/-- Walk's outcome for one directory: a return value, a propagating panic,
or a callback blocked forever on the held mutex (the walk then never
finishes). -/
inductive WalkOut
  | normal (r : Option GoErr)
  | panicked (msg : String)
  | blocked
  deriving DecidableEq, Repr

/-- `filepath.Walk(dir, walkFn)` over the directory's visit sequence: the
callback runs on each visit in order; its first non-nil return aborts the
remaining visits and becomes Walk's return value; a panic propagates; a
blocked callback blocks the walk. -/
def runWalk (exts : List String) (dir : String) (st : PState) :
    List WalkEvent → PState × WalkOut
  | [] => (st, .normal none)
  | e :: rest =>
    match walkFn exts dir st e.path e.info e.err e.content with
    | (st1, .panicked msg) => (st1, .panicked msg)
    | (st1, .blocked) => (st1, .blocked)
    | (st1, .ret (some r)) => (st1, .normal (some r))
    | (st1, .ret none) => runWalk exts dir st1 rest

/-- One `walkDir` worker (source lines 148–205): run the walk, and send a
non-nil Walk return on the channel.  A panic in the goroutine crashes the
process; a worker blocked on the mutex never calls `w.Done()`, so the
channel is never closed and the collecting `ParseTemplates` call blocks
forever. -/
def walkDirWorker (exts : List String) (st : PState) (dir : String)
    (events : List WalkEvent) : GoOutcome PState :=
  match runWalk exts dir st events with
  | (_, .panicked msg) => .panicked msg
  | (_, .blocked) => .blocked
  | (st1, .normal none) => .ok st1
  | (st1, .normal (some e)) => .ok { st1 with chan := st1.chan ++ [e] }

/-- A file system for the model: each registered directory's visit
sequence. -/
def FS := String → List WalkEvent

/-- The per-directory workers of `ParseTemplates`, serialized in
registration order: each worker walks its directory against the shared
state; a worker panic crashes the whole call, and a worker blocked on the
leaked mutex blocks the whole call. -/
def runDirs (exts : List String) (fs : FS) : PState → List String → GoOutcome PState
  | st, [] => .ok st
  | st, d :: rest =>
    match walkDirWorker exts st d (fs d) with
    | .panicked msg => .panicked msg
    | .blocked => .blocked
    | .ok st1 => runDirs exts fs st1 rest

/-- Source `ParseTemplates` (lines 133–228).  It opens with
`m.rootex.Lock()`, which blocks forever when the mutex was left held by an
earlier failing callback.  Step 1 (under the lock): when the current name
space is non-empty — `len(m.root.Templates()) > 0`, and the set of any root
built by `ht.New` already contains the root itself — replace it by a fresh
`ht.New("atomic-template-manager")` and reset `m.templates`; then apply the
stored delimiters and funcs, and unlock.  Step 2: walk every registered
directory and collect the channel.  The Go code runs one goroutine per
directory and the interleaving of their name-space writes is
nondeterministic; this embedding fixes the serialization that processes
`m.dirs` in order, one worker at a time.  A returning call records whether
a failing callback left the mutex held (`rootexLocked`).  The returned
error list is `[]` where the source returns `nil`. -/
def parseTemplates (fs : FS) (m : Manager) : GoOutcome (Manager × List GoErr) :=
  if m.rootexLocked then .blocked
  else
    let (root1, templates1) :=
      if m.root.set.length > 0 then (htNew "atomic-template-manager", ([] : List String))
      else (m.root, m.templates)
    let root2 := { root1 with leftDelim := m.leftDelim, rightDelim := m.rightDelim,
                              funcs := m.funcMap }
    let st0 : PState := { set := root2.set, templates := templates1, chan := [],
                          lockLeaked := false }
    match runDirs m.extensions fs st0 m.dirs with
    | .panicked msg => .panicked msg
    | .blocked => .blocked
    | .ok st =>
      .ok ({ m with
             root := { root2 with set := st.set },
             templates := st.templates,
             rootexLocked := st.lockLeaked },
           st.chan)

/-- Source `ExecuteTemplate`: when `reparse` is set it first calls
`m.ParseTemplates()` — whose `[]error` result is discarded — and then does
`m.rootex.Lock()` and renders through the engine.  When the recompile
reported errors the failing callback left `rootex` held, so that `Lock()`
blocks forever and the call never returns. -/
def executeTemplate (fs : FS) (m : Manager) (name : String) :
    GoOutcome (Manager × Except ExecErr String) :=
  if m.reparse then
    match parseTemplates fs m with
    | .panicked msg => .panicked msg
    | .blocked => .blocked
    | .ok (m1, _errs) =>
      if m1.rootexLocked then .blocked
      else .ok (m1, htExecuteTemplate m1.root name)
  else
    if m.rootexLocked then .blocked
    else .ok (m, htExecuteTemplate m.root name)

/-- The engine's name-space lookup that source `Lookup` performs once its
`Lock()` succeeds: the raw namespace content, which is also what any caller
observes whenever the lock is free (including between the per-file critical
sections of a running compile).  The handle can be to an incomplete
template, `some none`. -/
def lookupTemplate (m : Manager) (name : String) : Option (Option Tree) :=
  nsLookup m.root.set name

/-! ## Observations on a compile result -/

/-- The error list a compile returned (`none` when the compile panicked or
blocked). -/
def resultErrors : GoOutcome (Manager × List GoErr) → Option (List GoErr)
  | .ok (_, errs) => some errs
  | _ => none

/-- Render a name through the namespace a compile produced. -/
def resultExec : GoOutcome (Manager × List GoErr) → String → Option (Except ExecErr String)
  | .ok (m, _), n => some (htExecuteTemplate m.root n)
  | _, _ => none

/-- Look a name up in the namespace a compile produced. -/
def resultLookup : GoOutcome (Manager × List GoErr) → String → Option (Option (Option Tree))
  | .ok (m, _), n => some (lookupTemplate m n)
  | _, _ => none

/-! ## Spec-side walk vocabulary (for the extension allow-list claims)

A visit is *clean* for a given allow-list when the OS reported no error and
— for a regular file whose extension IS allow-listed — the contents read
and parse.  Files outside the allow-list may hold anything, including
unreadable or unparseable contents: the callback skips them before ever
reading, so they cannot abort a walk.  On clean visits the callback never
aborts, so a compile over clean directories is the error-free case the
extension claims quantify over. -/

/-- No incoming walk error, a present `FileInfo`, and readable, parseable
contents for allow-listed regular files; content unconstrained otherwise. -/
def cleanEvent (exts : List String) : WalkEvent → Bool
  | ⟨_, some i, none, c⟩ =>
      i.isDir || !(exts.contains (trimPrefixStr (filepathExt i.name) "."))
        || (match c with | .valid _ => true | _ => false)
  | _ => false

/-- The visit is a regular file whose extension is in the allow-list — the
files the source parses. -/
def isTemplateFile (exts : List String) (e : WalkEvent) : Bool :=
  match e.info with
  | some i => !i.isDir && exts.contains (trimPrefixStr (filepathExt i.name) ".")
  | none => false

/-- The extension the callback computes for a visit
(`strings.TrimPrefix(filepath.Ext(info.Name()), ".")`). -/
def eventExt (e : WalkEvent) : String :=
  match e.info with
  | some i => trimPrefixStr (filepathExt i.name) "."
  | none => ""

/-- The primary (long) alias of a visited file: its path with the
root-directory prefix plus separator trimmed, extension kept. -/
def eventLong (dir : String) (e : WalkEvent) : String :=
  trimPrefixStr e.path (dir ++ "/")

/-- The body of a valid file. -/
def eventBody (e : WalkEvent) : String :=
  match e.content with
  | .valid b => b
  | _ => ""

/-- Both names a visited file registers. -/
def eventAliases (dir : String) (e : WalkEvent) : List String :=
  [eventLong dir e, shortAlias dir e.path (eventExt e)]

/-- The net state change of one clean visit: allow-listed files insert the
incomplete primary entry, overwrite it with the parsed tree, record the
known template, and attach the tree under the short alias; everything else
leaves the state alone. -/
def stepClean (exts : List String) (dir : String) (st : PState) (e : WalkEvent) : PState :=
  if isTemplateFile exts e then
    { st with
      set := nsSet (nsSet (nsSet st.set (eventLong dir e) none)
               (eventLong dir e) (some (Tree.mk (eventBody e))))
               (shortAlias dir e.path (eventExt e)) (some (Tree.mk (eventBody e))),
      templates := st.templates ++ [eventLong dir e] }
  else st

/-- The visits a compile actually parses: the allow-listed regular files. -/
def matchedFiles (exts : List String) (events : List WalkEvent) : List WalkEvent :=
  events.filter (isTemplateFile exts)

/-- Every registered directory's visit sequence is clean for the given
allow-list. -/
def cleanFS (exts : List String) (fs : FS) (dirs : List String) : Bool :=
  dirs.all (fun d => (fs d).all (cleanEvent exts))

/-- The net state after all clean directory walks, one directory at a
time. -/
def dirsFold (exts : List String) (fs : FS) : PState → List String → PState
  | st, [] => st
  | st, d :: rest => dirsFold exts fs ((fs d).foldl (stepClean exts d) st) rest

/-- The spec's "known templates" after a clean compile: per registered
directory, the allow-listed files in walk order, by primary (long) alias. -/
def knownTemplatesSpec (exts : List String) (fs : FS) : List String → List String
  | [] => []
  | d :: rest => (matchedFiles exts (fs d)).map (eventLong d) ++ knownTemplatesSpec exts fs rest

/-- The spec's count of discovered files whose extension is in the
allow-list. -/
def matchedCount (exts : List String) (fs : FS) : List String → Nat
  | [] => 0
  | d :: rest => (matchedFiles exts (fs d)).length + matchedCount exts fs rest

/-- Whether some allow-listed file of some registered directory registers
the name `k` (as long or short alias). -/
def aliasRegistered (exts : List String) (fs : FS) (k : String) : List String → Bool
  | [] => false
  | d :: rest =>
    (matchedFiles exts (fs d)).any (fun e => (eventAliases d e).contains k)
      || aliasRegistered exts fs k rest

/-! ## Concrete inputs used by the claims -/

/-- `filepath.Abs` in a process whose working directory resolves: an
already-absolute path comes back unchanged. -/
def absId : AbsEnv := fun s => .ok s

/-- `filepath.Abs` in a process that cannot determine its working directory
for the path `"relative-dir"`. -/
def absWd : AbsEnv := fun s =>
  if s = "relative-dir" then .error (.errorsNew "getwd: no such file or directory")
  else .ok ("/abs/" ++ s)

/-- The README's directory layout, reduced to one file per depth: a
top-level `template-1.html`, a nested `pages/page-1.html`, a doubly nested
`atoms/subatoms/sub-atom-1.html` (visits in `filepath.Walk`'s lexical
order). -/
def c1Events : List WalkEvent :=
  [ ⟨"/tmp/root", some ⟨"root", true⟩, none, .valid ""⟩,
    ⟨"/tmp/root/atoms", some ⟨"atoms", true⟩, none, .valid ""⟩,
    ⟨"/tmp/root/atoms/subatoms", some ⟨"subatoms", true⟩, none, .valid ""⟩,
    ⟨"/tmp/root/atoms/subatoms/sub-atom-1.html", some ⟨"sub-atom-1.html", false⟩, none, .valid "SUB1"⟩,
    ⟨"/tmp/root/pages", some ⟨"pages", true⟩, none, .valid ""⟩,
    ⟨"/tmp/root/pages/page-1.html", some ⟨"page-1.html", false⟩, none, .valid "PAGE1"⟩,
    ⟨"/tmp/root/template-1.html", some ⟨"template-1.html", false⟩, none, .valid "T1"⟩ ]

/-- A manager with the root directory registered through `AddDirectories`. -/
def c1Manager : Manager := (addDirectories absId NewManager ["/tmp/root"]).1

def c1Run : GoOutcome (Manager × List GoErr) :=
  parseTemplates (fun _ => c1Events) c1Manager

/-- One nested template under root `/tmp`, for the long-alias shape. -/
def c2Events : List WalkEvent :=
  [ ⟨"/tmp", some ⟨"tmp", true⟩, none, .valid ""⟩,
    ⟨"/tmp/pages", some ⟨"pages", true⟩, none, .valid ""⟩,
    ⟨"/tmp/pages/page-1.html", some ⟨"page-1.html", false⟩, none, .valid "P1"⟩ ]

def c2Run : GoOutcome (Manager × List GoErr) :=
  parseTemplates (fun _ => c2Events) { NewManager with dirs := ["/tmp"] }

/-- First compile for the atomicity story: one valid template `a.html`. -/
def c3PriorEvents : List WalkEvent :=
  [ ⟨"/d", some ⟨"d", true⟩, none, .valid ""⟩,
    ⟨"/d/a.html", some ⟨"a.html", false⟩, none, .valid "A"⟩ ]

/-- Second compile: `b.html` parses, then `c.html` fails to parse (walk
visits are lexically ordered, so `b` is parsed before `c` aborts). -/
def c3LaterEvents : List WalkEvent :=
  [ ⟨"/d", some ⟨"d", true⟩, none, .valid ""⟩,
    ⟨"/d/b.html", some ⟨"b.html", false⟩, none, .valid "B"⟩,
    ⟨"/d/c.html", some ⟨"c.html", false⟩, none, .invalid "template: c"⟩ ]

def c3Start : Manager := { NewManager with dirs := ["/d"] }

/-- The manager after the first, fully successful compile. -/
def c3Prior : Manager :=
  match parseTemplates (fun _ => c3PriorEvents) c3Start with
  | .ok (m, _) => m
  | _ => c3Start

/-- The second compile, run from the prior fully-compiled state. -/
def c3Second : GoOutcome (Manager × List GoErr) :=
  parseTemplates (fun _ => c3LaterEvents) c3Prior

/-- A directory holding `a.html`, an unreadable subdirectory `secret`
(its listing fails with a `*PathError` wrapping `os.ErrPermission`, which is
how the OS reports permission denied), and `z.html`.  `filepath.Walk` visits
the failing directory once with the wrapped error and skips its contents. -/
def c6PermEvents : List WalkEvent :=
  [ ⟨"/p", some ⟨"p", true⟩, none, .valid ""⟩,
    ⟨"/p/a.html", some ⟨"a.html", false⟩, none, .valid "A"⟩,
    ⟨"/p/secret", some ⟨"secret", true⟩,
      some (.pathError "open" "/p/secret" .errPermission), .valid ""⟩,
    ⟨"/p/z.html", some ⟨"z.html", false⟩, none, .valid "Z"⟩ ]

def c6PermRun : GoOutcome (Manager × List GoErr) :=
  parseTemplates (fun _ => c6PermEvents) { NewManager with dirs := ["/p"] }

/-- A directory with an entry whose `lstat` fails: `filepath.Walk` then
invokes the callback with a nil `FileInfo` and the wrapped error. -/
def c6StatEvents : List WalkEvent :=
  [ ⟨"/q", some ⟨"q", true⟩, none, .valid ""⟩,
    ⟨"/q/ghost.html", none,
      some (.pathError "lstat" "/q/ghost.html" (.errorsNew "input/output error")), .valid ""⟩ ]

def c6StatRun : GoOutcome (Manager × List GoErr) :=
  parseTemplates (fun _ => c6StatEvents) { NewManager with dirs := ["/q"] }

/-- A directory where `a-good.html` parses and the lexically later
`z-bad.html` fails to parse, so a recompile reports errors. -/
def c10Events : List WalkEvent :=
  [ ⟨"/w", some ⟨"w", true⟩, none, .valid ""⟩,
    ⟨"/w/a-good.html", some ⟨"a-good.html", false⟩, none, .valid "G"⟩,
    ⟨"/w/z-bad.html", some ⟨"z-bad.html", false⟩, none, .invalid "template: z-bad"⟩ ]

/-- A manager in reparse-on-execute mode over that directory. -/
def c10Manager : Manager := { NewManager with dirs := ["/w"], reparse := true }

/-- The manager the recompile inside `ExecuteTemplate` produces. -/
def c10Parsed : Manager :=
  match parseTemplates (fun _ => c10Events) c10Manager with
  | .ok (m, _) => m
  | _ => c10Manager

/-- A directory, clean for the default allow-list, holding one allow-listed
file (`good.html`), one file with a foreign extension whose contents would
not even parse (`note.none`, unparseable) and one that cannot even be read
(`skip.txt`, unreadable) — the latter two are skipped before any read, so
their content does not matter. -/
def c7Events : List WalkEvent :=
  [ ⟨"/d", some ⟨"d", true⟩, none, .valid ""⟩,
    ⟨"/d/good.html", some ⟨"good.html", false⟩, none, .valid "GOOD"⟩,
    ⟨"/d/note.none", some ⟨"note.none", false⟩, none, .invalid "would never parse"⟩,
    ⟨"/d/skip.txt", some ⟨"skip.txt", false⟩, none, .unreadable⟩ ]

def c7Manager : Manager := { NewManager with dirs := ["/d"] }

/-- A clean reparse-mode setup for the error-free side of the reparse
claim: one valid template. -/
def c10CleanEvents : List WalkEvent :=
  [ ⟨"/v", some ⟨"v", true⟩, none, .valid ""⟩,
    ⟨"/v/ok.html", some ⟨"ok.html", false⟩, none, .valid "OKBODY"⟩ ]

def c10CleanManager : Manager := { NewManager with dirs := ["/v"], reparse := true }

/-- The manager the clean recompile inside `ExecuteTemplate` produces. -/
def c10CleanParsed : Manager :=
  match parseTemplates (fun _ => c10CleanEvents) c10CleanManager with
  | .ok (m, _) => m
  | _ => c10CleanManager

/-! ## Helper lemmas -/

/-- Go `strings.Split` never returns an empty slice: its result has at least
one element (the whole input when the separator does not occur). -/
theorem splitCharAux_ne_nil (sep : Char) (l : List Char) : splitCharAux sep l ≠ [] := by
  induction l with
  | nil => simp [splitCharAux]
  | cons c cs ih =>
    simp only [splitCharAux]
    by_cases h : c = sep
    · simp [h]
    · simp only [h, if_false]
      cases hs : splitCharAux sep cs with
      | nil => simp
      | cons a t => simp

theorem goSplitChar_ne_nil (sep : Char) (s : String) : goSplitChar sep s ≠ [] := by
  unfold goSplitChar
  intro h
  exact splitCharAux_ne_nil sep s.toList (by simpa using h)

/-- `templateAliases` never reaches its panic branch and always returns the
pair: the prefix-trimmed path (extension kept) and the derived short alias. -/
theorem aliases_pair (root path ext : String) :
    templateAliases root path ext
      = some [trimPrefixStr path (root ++ "/"), shortAlias root path ext] := by
  unfold templateAliases shortAlias
  cases hs : goSplitChar pathSeparator
      (trimSuffixStr (trimPrefixStr path (root ++ "/")) ("." ++ ext)) with
  | nil => exact absurd hs (goSplitChar_ne_nil _ _)
  | cons p t =>
    cases t with
    | nil => simp only [hs]
    | cons q rest => simp only [hs]

/-! ## C8 -/

/-- C8: the leading-numeric-prefix stripping function applied during
short-alias derivation is the identity: `removeLeadingNumbers p = p` for
every string, so the documented stripping of prefixes like `00-` is an
unimplemented no-op. -/
theorem c8_removeLeadingNumbers_identity (p : String) : removeLeadingNumbers p = p := rfl

/-! ## C9 -/

/-- C9: for every root, path and extension, `templateAliases` terminates
without reaching its panic branch (`strings.Split` always yields at least
one segment) and returns exactly two aliases: the path with the
root-plus-separator prefix trimmed, then the derived short alias. -/
theorem c9_templateAliases_no_panic (root path ext : String) :
    templateAliases root path ext
      = some [trimPrefixStr path (root ++ "/"), shortAlias root path ext] :=
  aliases_pair root path ext

/-! ## C2 -/

/-- C2 counterexample: for root `/tmp`, file `/tmp/pages/page-1.html`,
extension `html`, the claim's long alias (prefix and `.html` suffix both
removed) would be `pages/page-1`, but the registered aliases are
`pages/page-1.html` (extension kept) and `pages-page-1`: `pages/page-1` is
not among them, and after compiling that file the name `pages/page-1` is
absent from the namespace while `pages/page-1.html` renders. -/
theorem c2_long_alias_counterexample :
    trimSuffixStr (trimPrefixStr "/tmp/pages/page-1.html" ("/tmp" ++ "/")) ("." ++ "html")
        = "pages/page-1"
    ∧ templateAliases "/tmp" "/tmp/pages/page-1.html" "html"
        = some ["pages/page-1.html", "pages-page-1"]
    ∧ (["pages/page-1.html", "pages-page-1"] : List String).contains "pages/page-1" = false
    ∧ resultLookup c2Run "pages/page-1" = some none
    ∧ resultExec c2Run "pages/page-1.html" = some (.ok "P1") :=
  ⟨rfl, rfl, rfl, rfl, rfl⟩

/-- C2 amended: the long alias registered for a discovered path equals the
path with the root-plus-one-separator prefix removed and the extension
kept — the trailing `.E` suffix is not stripped from the long alias (the
extension-stripped form is only used to derive the short alias); separators
are preserved as-is. -/
theorem c2_long_alias_amended (root path ext : String) (l : List String)
    (h : templateAliases root path ext = some l) :
    l.head? = some (trimPrefixStr path (root ++ "/")) := by
  rw [aliases_pair] at h
  injection h with h2
  rw [← h2]
  rfl

/-- C2 amended, witnessed at the counterexample's input. -/
theorem c2_long_alias_amended_witness :
    templateAliases "/tmp" "/tmp/pages/page-1.html" "html"
      = some ["pages/page-1.html", "pages-page-1"]
    ∧ (["pages/page-1.html", "pages-page-1"] : List String).head?
      = some (trimPrefixStr "/tmp/pages/page-1.html" ("/tmp" ++ "/")) :=
  ⟨rfl, c2_long_alias_amended "/tmp" "/tmp/pages/page-1.html" "html"
    ["pages/page-1.html", "pages-page-1"] rfl⟩

/-! ## C4 -/

/-- C4: on a freshly constructed manager (no directories, no compile),
`ExecuteTemplate` fails for every name — the engine's template-not-found
outcome: an unknown name is undefined in the namespace, and the internal
root name `atomic-template-manager` exists only as an incomplete template
(nil tree), which also refuses to execute.  Executing a nonexistent name is
never a silent no-op. -/
theorem c4_execute_fresh_always_errors (fs : FS) (name : String) :
    executeTemplate fs NewManager name
      = .ok (NewManager, .error (if name = "atomic-template-manager"
          then ExecErr.incompleteTemplate name
          else ExecErr.undefinedTemplate name)) := by
  by_cases h : name = "atomic-template-manager"
  · subst h; rfl
  · have h2 : ¬("atomic-template-manager" = name) := fun hh => h hh.symm
    simp [executeTemplate, NewManager, htNew, htExecuteTemplate, nsLookup, h, h2]

/-! ## C5 -/

/-- C5 counterexample: with an environment in which absolutizing
`relative-dir` fails, `AddDirectories("relative-dir", "second-dir")`
returns the error immediately: the second path is never processed and is
not registered, contradicting "processing continues for the remaining
paths in the same call". -/
theorem c5_adddirs_counterexample :
    addDirectories absWd NewManager ["relative-dir", "second-dir"]
      = (NewManager, some (.errorsNew "getwd: no such file or directory"))
    ∧ (addDirectories absWd NewManager ["relative-dir", "second-dir"]).1.dirs.contains
        "/abs/second-dir" = false :=
  ⟨rfl, rfl⟩

/-- C5 amended: each path is converted to an absolute path before storage
and registering the same resolved path twice is a no-op, but a resolution
failure is fatal to the rest of the call: the erroring path is not
registered and the error is returned at once, so the remaining paths of the
same call are not processed (paths resolved before the failure stay
registered). -/
theorem c5_adddirs_amended (abs : AbsEnv) (m : Manager) (v : String) (rest : List String) :
    (∀ e, abs v = .error e → addDirectories abs m (v :: rest) = (m, some e))
    ∧ (∀ a, abs v = .ok a →
        addDirectories abs m (v :: rest)
          = addDirectories abs { m with dirs := setInsert m.dirs a } rest)
    ∧ (m.dirs.contains v = true → setInsert m.dirs v = m.dirs) := by
  refine ⟨?_, ?_, ?_⟩
  · intro e h; simp [addDirectories, h]
  · intro a h; simp [addDirectories, h]
  · intro h; unfold setInsert; rw [h]; simp

/-- C5 amended, witnessed: the failing head path aborts the call with the
manager unchanged. -/
theorem c5_adddirs_amended_witness :
    absWd "relative-dir" = .error (.errorsNew "getwd: no such file or directory")
    ∧ addDirectories absWd { NewManager with dirs := ["/abs/x"] } ["relative-dir", "second-dir"]
        = ({ NewManager with dirs := ["/abs/x"] },
           some (.errorsNew "getwd: no such file or directory")) :=
  ⟨rfl, (c5_adddirs_amended absWd { NewManager with dirs := ["/abs/x"] }
      "relative-dir" ["second-dir"]).1 _ rfl⟩

/-! ## C7 machinery: clean walks evaluated -/

/-- `stepClean` never touches the mutex. -/
theorem stepClean_lockLeaked (exts : List String) (dir : String) (st : PState) (e : WalkEvent) :
    (stepClean exts dir st e).lockLeaked = st.lockLeaked := by
  by_cases hm : isTemplateFile exts e <;> simp [stepClean, hm]

/-- On a clean visit, with the mutex free, the callback never aborts, never
blocks, and its state change is exactly `stepClean`.  Files outside the
allow-list are skipped before the read, whatever their contents. -/
theorem walkFn_clean (exts : List String) (dir : String) (st : PState) (e : WalkEvent)
    (h : cleanEvent exts e = true) (hlk : st.lockLeaked = false) :
    walkFn exts dir st e.path e.info e.err e.content = (stepClean exts dir st e, .ret none) := by
  obtain ⟨p, info, err, c⟩ := e
  cases info with
  | none => simp [cleanEvent] at h
  | some i =>
    cases err with
    | some ge => simp [cleanEvent] at h
    | none =>
      by_cases hd : i.isDir
      · simp [walkFn, stepClean, isTemplateFile, hd]
      · by_cases hx : trimPrefixStr (filepathExt i.name) "." ∈ exts
        · cases c with
          | valid body =>
            simp [walkFn, stepClean, isTemplateFile, eventLong, eventExt, eventBody,
                  hd, hx, hlk, aliases_pair]
          | invalid msg => simp [cleanEvent, hd, hx] at h
          | unreadable => simp [cleanEvent, hd, hx] at h
        · simp [walkFn, stepClean, isTemplateFile, hd, hx]

/-- A clean walk runs to completion, returns nil, and folds `stepClean`
over its visits. -/
theorem runWalk_clean (exts : List String) (dir : String) :
    ∀ (events : List WalkEvent) (st : PState),
      events.all (cleanEvent exts) = true → st.lockLeaked = false →
      runWalk exts dir st events = (events.foldl (stepClean exts dir) st, .normal none) := by
  intro events
  induction events with
  | nil => intro st _ _; rfl
  | cons e rest ih =>
    intro st h hlk
    rw [List.all_cons, Bool.and_eq_true] at h
    obtain ⟨h1, h2⟩ := h
    simp only [runWalk, walkFn_clean exts dir st e h1 hlk, List.foldl_cons]
    exact ih _ h2 (by rw [stepClean_lockLeaked]; exact hlk)

/-- A clean directory worker completes, reporting nothing on the channel
beyond the state's own accumulation. -/
theorem worker_clean (exts : List String) (d : String) (st : PState)
    (events : List WalkEvent) (h : events.all (cleanEvent exts) = true)
    (hlk : st.lockLeaked = false) :
    walkDirWorker exts st d events = .ok (events.foldl (stepClean exts d) st) := by
  unfold walkDirWorker
  rw [runWalk_clean exts d events st h hlk]

/-- Clean visit folds leave the mutex as they found it. -/
theorem foldl_stepClean_lockLeaked (exts : List String) (dir : String) :
    ∀ (events : List WalkEvent) (st : PState),
      (events.foldl (stepClean exts dir) st).lockLeaked = st.lockLeaked := by
  intro events
  induction events with
  | nil => intro st; rfl
  | cons e rest ih => intro st; rw [List.foldl_cons, ih, stepClean_lockLeaked]

/-- All clean workers complete without panic or deadlock, folding directory
by directory. -/
theorem runDirs_clean (exts : List String) (fs : FS) :
    ∀ (dirs : List String) (st : PState),
      dirs.all (fun d => (fs d).all (cleanEvent exts)) = true → st.lockLeaked = false →
      runDirs exts fs st dirs = .ok (dirsFold exts fs st dirs) := by
  intro dirs
  induction dirs with
  | nil => intro st _ _; rfl
  | cons d rest ih =>
    intro st h hlk
    rw [List.all_cons, Bool.and_eq_true] at h
    obtain ⟨h1, h2⟩ := h
    simp only [runDirs, worker_clean exts d st (fs d) h1 hlk, dirsFold]
    exact ih _ h2 (by rw [foldl_stepClean_lockLeaked]; exact hlk)

/-- Fold bookkeeping: the known-template list grows by the allow-listed
files in walk order. -/
theorem foldl_stepClean_templates (exts : List String) (dir : String) :
    ∀ (events : List WalkEvent) (st : PState),
      (events.foldl (stepClean exts dir) st).templates
        = st.templates ++ (matchedFiles exts events).map (eventLong dir) := by
  intro events
  induction events with
  | nil => intro st; simp [matchedFiles]
  | cons e rest ih =>
    intro st
    by_cases hm : isTemplateFile exts e
    · simp [List.foldl_cons, matchedFiles, List.filter_cons, hm, ih, stepClean,
            List.append_assoc]
    · simp [List.foldl_cons, matchedFiles, List.filter_cons, hm, ih, stepClean]

/-- Fold bookkeeping: clean visits never touch the error channel. -/
theorem foldl_stepClean_chan (exts : List String) (dir : String) :
    ∀ (events : List WalkEvent) (st : PState),
      (events.foldl (stepClean exts dir) st).chan = st.chan := by
  intro events
  induction events with
  | nil => intro st; rfl
  | cons e rest ih =>
    intro st
    by_cases hm : isTemplateFile exts e
    · simp [List.foldl_cons, ih, stepClean, hm]
    · simp [List.foldl_cons, ih, stepClean, hm]

theorem dirsFold_templates (exts : List String) (fs : FS) :
    ∀ (dirs : List String) (st : PState),
      (dirsFold exts fs st dirs).templates
        = st.templates ++ knownTemplatesSpec exts fs dirs := by
  intro dirs
  induction dirs with
  | nil => intro st; simp [dirsFold, knownTemplatesSpec]
  | cons d rest ih =>
    intro st
    simp [dirsFold, knownTemplatesSpec, ih, foldl_stepClean_templates, List.append_assoc]

theorem dirsFold_chan (exts : List String) (fs : FS) :
    ∀ (dirs : List String) (st : PState), (dirsFold exts fs st dirs).chan = st.chan := by
  intro dirs
  induction dirs with
  | nil => intro st; rfl
  | cons d rest ih =>
    intro st
    simp [dirsFold, ih, foldl_stepClean_chan]

/-- Go map write/read: the inserted key reads back the inserted value and
every other key is untouched. -/
theorem nsLookup_nsSet (s : List (String × Option Tree)) (n : String) (t : Option Tree)
    (k : String) :
    nsLookup (nsSet s n t) k = if n = k then some t else nsLookup s k := by
  induction s with
  | nil => simp [nsSet, nsLookup]
  | cons kv rest ih =>
    obtain ⟨a, b⟩ := kv
    by_cases han : a = n
    · subst han
      by_cases hak : a = k <;> simp [nsSet, nsLookup, hak]
    · by_cases hak : a = k
      · subst hak
        have hnk : ¬(n = a) := fun hh => han hh.symm
        simp [nsSet, nsLookup, han, hnk]
      · simp [nsSet, nsLookup, han, hak, ih]

/-- One clean visit extends the reachable-name domain by exactly the two
aliases of an allow-listed file. -/
theorem lookup_stepClean (exts : List String) (dir : String) (st : PState) (e : WalkEvent)
    (k : String) :
    (nsLookup (stepClean exts dir st e).set k).isSome
      = ((nsLookup st.set k).isSome
          || (isTemplateFile exts e && (eventAliases dir e).contains k)) := by
  by_cases hm : isTemplateFile exts e
  · by_cases h1 : shortAlias dir e.path (eventExt e) = k
    · simp [stepClean, hm, nsLookup_nsSet, eventAliases, h1]
    · have h1' : ¬(k = shortAlias dir e.path (eventExt e)) := fun hh => h1 hh.symm
      by_cases h2 : eventLong dir e = k
      · simp [stepClean, hm, nsLookup_nsSet, eventAliases, h1, h1', h2]
      · have h2' : ¬(k = eventLong dir e) := fun hh => h2 hh.symm
        simp [stepClean, hm, nsLookup_nsSet, eventAliases, h1, h1', h2, h2']
  · simp [stepClean, hm]

theorem lookup_foldl_stepClean (exts : List String) (dir : String) :
    ∀ (events : List WalkEvent) (st : PState) (k : String),
      (nsLookup ((events.foldl (stepClean exts dir) st)).set k).isSome
        = ((nsLookup st.set k).isSome
            || (matchedFiles exts events).any (fun e => (eventAliases dir e).contains k)) := by
  intro events
  induction events with
  | nil => intro st k; simp [matchedFiles]
  | cons e rest ih =>
    intro st k
    by_cases hm : isTemplateFile exts e
    · simp [List.foldl_cons, matchedFiles, List.filter_cons, hm, ih,
            lookup_stepClean, Bool.or_assoc]
    · simp [List.foldl_cons, matchedFiles, List.filter_cons, hm, ih, lookup_stepClean]

theorem dirsFold_lookup (exts : List String) (fs : FS) :
    ∀ (dirs : List String) (st : PState) (k : String),
      (nsLookup (dirsFold exts fs st dirs).set k).isSome
        = ((nsLookup st.set k).isSome || aliasRegistered exts fs k dirs) := by
  intro dirs
  induction dirs with
  | nil => intro st k; simp [dirsFold, aliasRegistered]
  | cons d rest ih =>
    intro st k
    simp [dirsFold, aliasRegistered, ih, lookup_foldl_stepClean, Bool.or_assoc]

theorem knownTemplatesSpec_length (exts : List String) (fs : FS) :
    ∀ (dirs : List String),
      (knownTemplatesSpec exts fs dirs).length = matchedCount exts fs dirs := by
  intro dirs
  induction dirs with
  | nil => rfl
  | cons d rest ih => simp [knownTemplatesSpec, matchedCount, ih]

/-! ## C7 -/

/-- C7: the extension allow-list snapshot at compile time governs exactly
what is compiled.  For every manager with a non-empty engine namespace (as
every constructed manager has) and every clean file system, the compile
succeeds with no errors and: the known-template list is exactly the
allow-listed files of the registered directories in walk order (so its
count equals the number of discovered files whose extension is in the
allow-list at that call, and a file whose extension is not allow-listed is
never compiled regardless of its contents — cleanliness constrains only the
files the allow-list matches, so the skipped files may be unreadable or
unparseable); and a name is reachable in the rebuilt namespace exactly when
it is the internal root name or an alias of an allow-listed file — so after
removing an extension, a previously matched file of that extension no
longer contributes its aliases on the next compile. -/
theorem c7_extension_allowlist (fs : FS) (m : Manager)
    (hclean : cleanFS m.extensions fs m.dirs = true) (hroot : m.root.set ≠ [])
    (hlock : m.rootexLocked = false) :
    ∃ m', parseTemplates fs m = .ok (m', [])
      ∧ m'.templates = knownTemplatesSpec m.extensions fs m.dirs
      ∧ m'.templates.length = matchedCount m.extensions fs m.dirs
      ∧ ∀ k, (nsLookup m'.root.set k).isSome
          = (("atomic-template-manager" = k : Bool)
              || aliasRegistered m.extensions fs k m.dirs) := by
  unfold cleanFS at hclean
  unfold parseTemplates
  rw [if_neg (show ¬(m.rootexLocked = true) by rw [hlock]; exact Bool.false_ne_true)]
  rw [if_pos (List.length_pos.mpr hroot)]
  dsimp only [htNew]
  rw [runDirs_clean m.extensions fs m.dirs _ hclean rfl]
  dsimp only
  rw [dirsFold_chan m.extensions fs]
  refine ⟨_, rfl, ?_, ?_, ?_⟩
  · simp [dirsFold_templates]
  · simp [dirsFold_templates, knownTemplatesSpec_length]
  · intro k
    by_cases hk : "atomic-template-manager" = k <;>
      simp [dirsFold_lookup, nsLookup, hk]

/-- C7 witnessed on a directory holding `good.html` (valid), `note.none`
(unparseable) and `skip.txt` (unreadable) with the default allow-list: one
known template, reachable under `good.html` and `good`; the
foreign-extension files are not compiled although their contents are
invalid. -/
theorem c7_extension_allowlist_witness :
    cleanFS c7Manager.extensions (fun _ => c7Events) c7Manager.dirs = true
    ∧ c7Manager.root.set ≠ []
    ∧ c7Manager.rootexLocked = false
    ∧ (∃ m', parseTemplates (fun _ => c7Events) c7Manager = .ok (m', [])
        ∧ m'.templates = knownTemplatesSpec c7Manager.extensions (fun _ => c7Events) c7Manager.dirs
        ∧ m'.templates.length = matchedCount c7Manager.extensions (fun _ => c7Events) c7Manager.dirs
        ∧ ∀ k, (nsLookup m'.root.set k).isSome
            = (("atomic-template-manager" = k : Bool)
                || aliasRegistered c7Manager.extensions (fun _ => c7Events) k c7Manager.dirs)) :=
  ⟨rfl, by simp [c7Manager, NewManager, htNew], rfl,
   c7_extension_allowlist (fun _ => c7Events) c7Manager rfl
     (by simp [c7Manager, NewManager, htNew]) rfl⟩

/-! ## C1 -/

/-- C1: after compiling the registered root directory `/tmp/root`, every
discovered template file renders under both derived aliases: the top-level
`template-1.html` under `template-1` and `template-1.html`; the nested
`pages/page-1.html` under the long alias `pages/page-1.html` and the short
alias `pages-page-1`; the doubly nested `atoms/subatoms/sub-atom-1.html`
under `atoms/subatoms/sub-atom-1.html` and `atoms-sub-atom-1` (the
intermediate `subatoms` segment dropped).  The compile reports no errors. -/
theorem c1_aliases_reachable :
    resultErrors c1Run = some []
    ∧ resultExec c1Run "template-1" = some (.ok "T1")
    ∧ resultExec c1Run "template-1.html" = some (.ok "T1")
    ∧ resultExec c1Run "pages/page-1.html" = some (.ok "PAGE1")
    ∧ resultExec c1Run "pages-page-1" = some (.ok "PAGE1")
    ∧ resultExec c1Run "atoms/subatoms/sub-atom-1.html" = some (.ok "SUB1")
    ∧ resultExec c1Run "atoms-sub-atom-1" = some (.ok "SUB1") :=
  ⟨rfl, rfl, rfl, rfl, rfl, rfl, rfl⟩

/-! ## C3 -/

/-- C3 counterexample: from a fully-compiled state holding `a` (first
compile of `/d`, no errors), a second compile whose directory now holds a
valid `b.html` and an unparseable `c.html` returns errors, yet the visible
namespace after it is neither the prior fully-compiled one (`a` is gone)
nor a full replacement (`b` is present, and `c.html` dangles as an
incomplete entry created before the parse failure): a partial replacement
is exactly what a caller observes after a compile that returned errors. -/
theorem c3_not_atomic_counterexample :
    resultErrors (parseTemplates (fun _ => c3PriorEvents) c3Start) = some []
    ∧ lookupTemplate c3Prior "a" = some (some (.mk "A"))
    ∧ resultErrors c3Second = some [.parseError "template: c"]
    ∧ resultLookup c3Second "a" = some none
    ∧ resultLookup c3Second "b" = some (some (some (.mk "B")))
    ∧ resultLookup c3Second "c.html" = some (some none) :=
  ⟨rfl, rfl, rfl, rfl, rfl, rfl⟩

/-- C3 amended: a compile cycle discards the previous namespace up front
(whenever it is non-empty, which holds for every manager the constructor
produces) and rebuilds it incrementally; a compile that returns errors
leaves the namespace in the partially rebuilt state — the templates parsed
before the failure plus an incomplete entry for the failing file (and the
mutex left held by the failing callback) — rather than restoring the prior
fully-compiled state.  Shown for every prior namespace `g` and
known-template list `ts`: compiling the `b`/`c` directory from that state
always ends in the same partial namespace, independent of the prior
contents. -/
theorem c3_partial_state_amended (g : GoTemplate) (ts : List String) (h : g.set ≠ []) :
    parseTemplates (fun _ => c3LaterEvents)
        { NewManager with dirs := ["/d"], root := g, templates := ts }
      = .ok ({ NewManager with
               dirs := ["/d"],
               root := { name := "atomic-template-manager",
                         set := [("atomic-template-manager", none),
                                 ("b.html", some (.mk "B")), ("b", some (.mk "B")),
                                 ("c.html", none)],
                         leftDelim := "", rightDelim := "", funcs := [] },
               templates := ["b.html"],
               rootexLocked := true },
             [.parseError "template: c"]) := by
  obtain ⟨nm, gset, ld, rd, fns⟩ := g
  cases gset with
  | nil => exact absurd rfl h
  | cons k krest =>
    unfold parseTemplates
    simp only [List.length_cons]
    rw [if_pos (Nat.succ_pos _)]
    rfl

/-- C3 amended, witnessed from a fresh constructor state. -/
theorem c3_partial_state_amended_witness :
    (htNew "atomic-template-manager").set ≠ []
    ∧ parseTemplates (fun _ => c3LaterEvents)
        { NewManager with
          dirs := ["/d"],
          root := htNew "atomic-template-manager",
          templates := [] }
      = .ok ({ NewManager with
               dirs := ["/d"],
               root := { name := "atomic-template-manager",
                         set := [("atomic-template-manager", none),
                                 ("b.html", some (.mk "B")), ("b", some (.mk "B")),
                                 ("c.html", none)],
                         leftDelim := "", rightDelim := "", funcs := [] },
               templates := ["b.html"],
               rootexLocked := true },
             [.parseError "template: c"]) :=
  ⟨by simp [htNew],
   c3_partial_state_amended (htNew "atomic-template-manager") [] (by simp [htNew])⟩

/-! ## C6 -/

/-- C6, evaluated at the failing inputs.  First: walking `/p`, whose
`secret` subdirectory is unreadable (the OS reports a `*PathError` wrapping
`os.ErrPermission`, never the bare sentinel the source compares against
with `==`), the compile returns NO errors — the permission failure is
silently dropped, not captured as a reportable error — while the sibling
files still parse.  Second: a failed `lstat` delivers a nil `FileInfo` and
the callback's `info.IsDir()` dereference panics instead of reporting the
walk error. -/
theorem c6_walk_errors_not_reported :
    resultErrors c6PermRun = some []
    ∧ resultExec c6PermRun "a" = some (.ok "A")
    ∧ resultExec c6PermRun "z" = some (.ok "Z")
    ∧ c6StatRun = .panicked "runtime error: invalid memory address or nil pointer dereference" :=
  ⟨rfl, rfl, rfl, rfl⟩

/-! ## C10 -/

/-- C10 counterexample: with reparse-on-execute set over a directory whose
recompile reports a parse error, the caller does NOT see "only the render
outcome": the failing callback returned while holding `rootex` (recorded in
the recompiled manager), so `ExecuteTemplate`'s own `m.rootex.Lock()` then
blocks forever — the call never returns any outcome, neither the render
nor the discarded compile errors. -/
theorem c10_no_render_outcome_counterexample :
    c10Manager.reparse = true
    ∧ parseTemplates (fun _ => c10Events) c10Manager
        = .ok (c10Parsed, [.parseError "template: z-bad"])
    ∧ c10Parsed.rootexLocked = true
    ∧ executeTemplate (fun _ => c10Events) c10Manager "a-good" = .blocked :=
  ⟨rfl, rfl, rfl, rfl⟩

/-- C10 amended: with the reparse-on-execute flag set, `ExecuteTemplate`
invokes a full recompile and silently discards its `[]error` result — the
caller is never shown the compile errors, whatever they are.  When the
recompile returns with the mutex free (in particular whenever it reports no
errors), the caller sees only the render outcome against the recompiled
namespace, independent of the discarded error list; but when a template
failed to parse, the failing callback left `rootex` held and
`ExecuteTemplate` blocks forever acquiring it, so the caller sees no
outcome at all. -/
theorem c10_reparse_discards_errors_amended (fs : FS) (m : Manager) (name : String)
    (m1 : Manager) (errs : List GoErr) (hrep : m.reparse = true)
    (hp : parseTemplates fs m = .ok (m1, errs)) :
    (m1.rootexLocked = false →
        executeTemplate fs m name = .ok (m1, htExecuteTemplate m1.root name))
    ∧ (m1.rootexLocked = true → executeTemplate fs m name = .blocked) := by
  constructor <;> intro hl <;> simp [executeTemplate, hrep, hp, hl]

/-- C10 amended, witnessed on both sides: a clean recompile renders
normally with the (empty) discarded error list never surfacing; an errored
recompile blocks the execute call forever. -/
theorem c10_reparse_discards_errors_amended_witness :
    (parseTemplates (fun _ => c10CleanEvents) c10CleanManager = .ok (c10CleanParsed, [])
      ∧ executeTemplate (fun _ => c10CleanEvents) c10CleanManager "ok"
          = .ok (c10CleanParsed, .ok "OKBODY"))
    ∧ (parseTemplates (fun _ => c10Events) c10Manager
          = .ok (c10Parsed, [.parseError "template: z-bad"])
      ∧ executeTemplate (fun _ => c10Events) c10Manager "a-good" = .blocked) := by
  refine ⟨⟨rfl, ?_⟩, ⟨rfl, ?_⟩⟩
  · have h := (c10_reparse_discards_errors_amended (fun _ => c10CleanEvents)
      c10CleanManager "ok" c10CleanParsed [] rfl rfl).1 rfl
    rw [h]
    rfl
  · exact (c10_reparse_discards_errors_amended (fun _ => c10Events) c10Manager "a-good"
      c10Parsed [GoErr.parseError "template: z-bad"] rfl rfl).2 rfl

end Atm
